import Mathlib

/-!
Verification of the notes-and-TODO application (`server.js`, `migrations.js`).

The JavaScript core is shallowly embedded: strings are `List Char`, a note's
content is split into lines exactly as `content.split('\n')` does, and each
source function (`extractTodos`, `updateTodoInNoteContent`,
`extractAndSaveTodos`, the `GET /api/notes` search filter) becomes a pure
executable Lean function over that representation.  Database effects are
modelled by passing the relevant rows in and returning the rows that would be
written.  Wall-clock timestamps (`createdDate`, `new Date()`) are omitted:
they are nondeterministic and no verified property mentions them.
-/

namespace NotesApp

/-- Strings are modelled as lists of characters. -/
abbrev Str := List Char

/-- JavaScript whitespace test, restricted to the ASCII whitespace characters
(space, tab, newline, carriage return, vertical tab, form feed); all inputs
relevant to the verified properties are ASCII. -/
def isWs (c : Char) : Bool :=
  c = ' ' || c = '\t' || c = '\n' || c = '\r' || c = '\x0b' || c = '\x0c'

/-- Remove leading whitespace (the left half of JavaScript `trim`). -/
def trimLeft : Str → Str
  | [] => []
  | c :: cs => if isWs c then trimLeft cs else c :: cs

/-- Remove trailing whitespace (the right half of JavaScript `trim`). -/
def trimRight : Str → Str
  | [] => []
  | c :: cs =>
    match trimRight cs with
    | [] => if isWs c then [] else [c]
    | r => c :: r

/-- JavaScript `String.prototype.trim` on a single line. -/
def trim (s : Str) : Str := trimRight (trimLeft s)

/-- Does the string start with the given character? (JS `startsWith` on a
one-character argument.) -/
def startsWithChar (s : Str) (c : Char) : Bool :=
  match s with
  | [] => false
  | a :: _ => a = c

/-- Does `s` start with the literal string `p`? (JS `startsWith`.) -/
def startsWithStr : Str → Str → Bool
  | [], _ => true
  | _ :: _, [] => false
  | p :: ps, c :: cs => p = c && startsWithStr ps cs

/-- `content.split('\n')`: split into lines at every newline.  On the empty
string this yields one empty line, exactly as in JavaScript. -/
def splitNl : Str → List Str
  | [] => [[]]
  | c :: cs =>
    match splitNl cs with
    | [] => [[]]
    | l :: ls => if c = '\n' then [] :: l :: ls else (c :: l) :: ls

/-- `lines.join('\n')`: the inverse of `splitNl`. -/
def joinNl : List Str → Str
  | [] => []
  | [l] => l
  | l :: ls => l ++ '\n' :: joinNl ls

/-- ASCII lower-casing of one character (enough for the `/i` regex flags:
every case-insensitive token in the source is ASCII), written as an explicit
table to keep character reasoning elementary. -/
def toLowerAscii (c : Char) : Char :=
  if c = 'A' then 'a' else if c = 'B' then 'b' else if c = 'C' then 'c'
  else if c = 'D' then 'd' else if c = 'E' then 'e' else if c = 'F' then 'f'
  else if c = 'G' then 'g' else if c = 'H' then 'h' else if c = 'I' then 'i'
  else if c = 'J' then 'j' else if c = 'K' then 'k' else if c = 'L' then 'l'
  else if c = 'M' then 'm' else if c = 'N' then 'n' else if c = 'O' then 'o'
  else if c = 'P' then 'p' else if c = 'Q' then 'q' else if c = 'R' then 'r'
  else if c = 'S' then 's' else if c = 'T' then 't' else if c = 'U' then 'u'
  else if c = 'V' then 'v' else if c = 'W' then 'w' else if c = 'X' then 'x'
  else if c = 'Y' then 'y' else if c = 'Z' then 'z' else c

/-- Case-insensitive comparison of two characters (ASCII). -/
def ciCharEq (c d : Char) : Bool := toLowerAscii c = toLowerAscii d

/-- If `pat` is a case-insensitive prefix of `s`, return the remainder of `s`;
otherwise `none`.  This is the anchored part of the `^…/i` regexes. -/
def ciStrip : Str → Str → Option Str
  | [], s => some s
  | _ :: _, [] => none
  | p :: ps, c :: cs => if ciCharEq p c then ciStrip ps cs else none

/-- The decimal digit character for `n < 10`. -/
def digitChar (n : Nat) : Char := Char.ofNat (48 + n)

/-- Fuelled decimal rendering; `fuel` bounds the recursion depth. -/
def natToCharsAux : Nat → Nat → Str
  | 0, _ => []
  | fuel + 1, n =>
    if n < 10 then [digitChar n]
    else natToCharsAux fuel (n / 10) ++ [digitChar (n % 10)]

/-- Decimal rendering of a natural number, as JavaScript template-string
interpolation `${i}` produces for a nonnegative integer. -/
def natToChars (n : Nat) : Str := natToCharsAux (n + 1) n

/-- Decimal value of a digit string (used to prove `natToChars` injective). -/
def charsVal (s : Str) : Nat := s.foldl (fun a c => a * 10 + (c.toNat - 48)) 0

/-- The identifier `"{noteId}-{i}"` that `extractTodos` assigns to the todo
extracted from line `i`. -/
def mkId (noteId i : Nat) : Str := natToChars noteId ++ '-' :: natToChars i

/-- The three priority levels stored in the `priority` column. -/
inductive Priority
  | low
  | medium
  | high
  deriving DecidableEq, Repr

/-- The priority token table of `extractTodos`, in source order: pattern text
and resulting level.  Matching is case-insensitive (the bracket patterns carry
the `/i` flag; the bang patterns contain no letters). -/
def priorityPats : List (Str × Priority) :=
  [("[H]".data, Priority.high), ("[HIGH]".data, Priority.high),
   ("!!!".data, Priority.high), ("[M]".data, Priority.medium),
   ("[MED]".data, Priority.medium), ("[MEDIUM]".data, Priority.medium),
   ("!!".data, Priority.medium), ("[L]".data, Priority.low),
   ("[LOW]".data, Priority.low), ("!".data, Priority.low)]

/-- Walk the pattern table in order; the first pattern that matches at the
start of the text wins, and the matched token plus any whitespace after it is
removed (`todoText.replace(/^tok\s*`/, '')`). -/
def runPats : List (Str × Priority) → Str → Priority × Str
  | [], t => (Priority.medium, t)
  | (pat, p) :: rest, t =>
    match ciStrip pat t with
    | some r => (p, r.dropWhile isWs)
    | none => runPats rest t

/-- The Priority Lexer: the priority-pattern loop of `extractTodos`.  Returns
the parsed priority (default medium) and the text with the token stripped. -/
def parsePriority (t : Str) : Priority × Str := runPats priorityPats t

/-- True when none of the ten priority patterns matches at the start of `t`. -/
def noTokenMatch (t : Str) : Bool :=
  priorityPats.all (fun pp => (ciStrip pp.1 t).isNone)

/-- The priority prefix written back by `updateTodoInNoteContent`: `"[H] "`
for high, `"[L] "` for low and nothing for medium. -/
def priorityMarker : Priority → Str
  | Priority.high => "[H] ".data
  | Priority.low => "[L] ".data
  | Priority.medium => []

/-- The regex `^#+\s*TODO\s*$/i` of `extractTodos` on a (trimmed) line: one or
more `#`, optional whitespace, the word TODO case-insensitively, optional
whitespace, end of line. -/
def isTodoHeading (t : Str) : Bool :=
  !(t.takeWhile (fun c => c = '#')).isEmpty &&
    (match ciStrip "TODO".data (trimLeft (t.dropWhile (fun c => c = '#'))) with
     | some r => (trimLeft r).isEmpty
     | none => false)

/-- The regex `^#+\s/` on a (trimmed) line: one or more `#` followed by one
whitespace character — any other markdown heading, which ends a TODO
section. -/
def isHeadingExit (t : Str) : Bool :=
  !(t.takeWhile (fun c => c = '#')).isEmpty &&
    (match t.dropWhile (fun c => c = '#') with
     | [] => false
     | c :: _ => isWs c)

/-- `line.startsWith('-') || line.startsWith('*')` on the trimmed line. -/
def isListItem (t : Str) : Bool := startsWithChar t '-' || startsWithChar t '*'

/-- The section-ending prose test of `extractTodos`, written exactly as in the
source: non-empty, and not starting with space, tab, `-` or `*`.  It is
applied to the already-trimmed line, so the whitespace tests never fire. -/
def proseEnd (t : Str) : Bool :=
  !t.isEmpty && !startsWithChar t ' ' && !startsWithChar t '\t' &&
    !startsWithChar t '-' && !startsWithChar t '*'

/-- One extracted TODO record, as built by `extractTodos`.  The wall-clock
`createdDate` field is omitted (nondeterministic, unused by any property). -/
structure Todo where
  id : Str
  noteId : Nat
  noteTitle : Str
  text : Str
  completed : Bool
  completedDate : Option Str
  completionComment : Option Str
  priority : Priority
  deriving DecidableEq, Repr

/-- The line loop of `extractTodos`: `i` is the current line index and the
Bool is the `inTodoSection` flag.  Each raw line is trimmed; a TODO heading
(re)enters the section; inside the section a list line is stripped of its
marker, trimmed, and (when non-empty) run through the Priority Lexer and
emitted; another heading or section-ending prose leaves the section. -/
def extractLoop (noteId : Nat) (noteTitle : Str) :
    List Str → Nat → Bool → List Todo
  | [], _, _ => []
  | raw :: rest, i, inSec =>
    let line := trim raw
    if isTodoHeading line then extractLoop noteId noteTitle rest (i + 1) true
    else if inSec then
      if isListItem line then
        let todoText := trim (line.drop 1)
        if todoText.isEmpty then extractLoop noteId noteTitle rest (i + 1) true
        else
          let pr := parsePriority todoText
          { id := mkId noteId i, noteId := noteId, noteTitle := noteTitle,
            text := pr.2, completed := false, completedDate := none,
            completionComment := none, priority := pr.1 } ::
            extractLoop noteId noteTitle rest (i + 1) true
      else if isHeadingExit line then extractLoop noteId noteTitle rest (i + 1) false
      else if proseEnd line then extractLoop noteId noteTitle rest (i + 1) false
      else extractLoop noteId noteTitle rest (i + 1) true
    else extractLoop noteId noteTitle rest (i + 1) false

/-- `extractTodos(noteId, content, noteTitle)` from `server.js`. -/
def extractTodos (noteId : Nat) (content noteTitle : Str) : List Todo :=
  extractLoop noteId noteTitle (splitNl content) 0 false

/-- `todoId.split('-')[0]`: the note part of a todo identifier. -/
def notePart (todoId : Str) : Str := todoId.takeWhile (fun c => c ≠ '-')

/-- The line loop of `updateTodoInNoteContent`, with the same section-tracking
state machine as `extractLoop`.  A list line inside the section whose
recomputed identifier `"{notePart todoId}-{i}"` equals `todoId` is replaced by
original indentation + original marker + space + priority marker + new text;
every other line is passed through unchanged. -/
def updateLoop (pre todoId newText : Str) (newPriority : Priority) :
    List Str → Nat → Bool → List Str
  | [], _, _ => []
  | raw :: rest, i, inSec =>
    let t := trim raw
    if isTodoHeading t then
      raw :: updateLoop pre todoId newText newPriority rest (i + 1) true
    else if inSec then
      if isListItem t then
        if pre ++ '-' :: natToChars i = todoId then
          (raw.takeWhile isWs ++
              (if startsWithChar t '-' then '-' else '*') :: ' ' ::
              (priorityMarker newPriority ++ newText)) ::
            updateLoop pre todoId newText newPriority rest (i + 1) true
        else raw :: updateLoop pre todoId newText newPriority rest (i + 1) true
      else if isHeadingExit t then
        raw :: updateLoop pre todoId newText newPriority rest (i + 1) false
      else if proseEnd t then
        raw :: updateLoop pre todoId newText newPriority rest (i + 1) false
      else raw :: updateLoop pre todoId newText newPriority rest (i + 1) true
    else raw :: updateLoop pre todoId newText newPriority rest (i + 1) false

/-- The rewritten line list of `updateTodoInNoteContent`. -/
def updatedLines (content todoId newText : Str) (newPriority : Priority) :
    List Str :=
  updateLoop (notePart todoId) todoId newText newPriority (splitNl content) 0 false

/-- `updateTodoInNoteContent(content, todoId, newText, newPriority)` from
`server.js`: the TODO Line Rewriter. -/
def updateTodoInNoteContent (content todoId newText : Str)
    (newPriority : Priority) : Str :=
  joinNl (updatedLines content todoId newText newPriority)

/-- A row of the `todos` table as read back by `extractAndSaveTodos`
(`SELECT * FROM todos WHERE note_id = ?`).  Only the columns the function
reads are kept.  `priority` is `none` when the column is NULL or empty (the
`existingTodo.priority || 'medium'` fallback in the source). -/
structure StoredTodo where
  text : Str
  completed : Bool
  completed_date : Option Str
  completion_comment : Option Str
  priority : Option Priority
  deriving DecidableEq, Repr

/-- The `existingTodosMap` lookup: the rows are written into a `Map` keyed by
`text` in list order, so a later row with the same text overwrites an earlier
one; `get` then returns the last matching row. -/
def mapLookup : List StoredTodo → Str → Option StoredTodo
  | [], _ => none
  | e :: rest, txt =>
    match mapLookup rest txt with
    | some r => some r
    | none => if e.text = txt then some e else none

/-- The carry-forward step of `extractAndSaveTodos`: when a stored row has the
same text as the candidate, its `completed`, `completed_date`,
`completion_comment` and `priority` (defaulted to medium when absent)
overwrite the candidate's fields before the insert. -/
def carryForward (stored : List StoredTodo) (t : Todo) : Todo :=
  match mapLookup stored t.text with
  | some e =>
    { t with completed := e.completed, completedDate := e.completed_date,
             completionComment := e.completion_comment,
             priority := e.priority.getD Priority.medium }
  | none => t

/-- `extractAndSaveTodos(noteId, content, noteTitle)` from `server.js`, as a
pure function: given the rows currently stored for the note, it returns the
rows inserted after the delete-all step (extraction followed by per-candidate
carry-forward). -/
def extractAndSaveTodos (existingTodos : List StoredTodo) (noteId : Nat)
    (content noteTitle : Str) : List Todo :=
  (extractTodos noteId content noteTitle).map (carryForward existingTodos)

/-- A row of the `notes` table as seen by the `GET /api/notes` filter: only
`title`, `content` and the raw `tags` column (a JSON-serialized array of tag
names, or NULL) take part in the search. -/
structure NoteRow where
  title : Str
  content : Str
  tags : Option Str
  deriving DecidableEq, Repr

/-- Fuelled SQLite `LIKE` matcher: `%` matches any sequence, `_` any single
character, and ordinary characters compare ASCII-case-insensitively (the
SQLite default).  The fuel strictly bounds pattern length + text length. -/
def likeAux : Nat → Str → Str → Bool
  | 0, _, _ => false
  | _ + 1, [], [] => true
  | _ + 1, [], _ :: _ => false
  | fuel + 1, c :: ps, t =>
    if c = '%' then
      likeAux fuel ps t ||
        (match t with
         | [] => false
         | _ :: ts => likeAux fuel (c :: ps) ts)
    else
      match t with
      | [] => false
      | d :: ts =>
        if c = '_' then likeAux fuel ps ts
        else ciCharEq c d && likeAux fuel ps ts

/-- `column LIKE pattern` (no ESCAPE clause), NULL excluded by the caller. -/
def likeMatch (pat t : Str) : Bool := likeAux (pat.length + t.length + 1) pat t

/-- The literal prefix `tag:` recognized by the notes search route. -/
def tagColon : Str := "tag:".data

/-- The WHERE clause of `GET /api/notes`: with an empty (absent) `search` no
filtering happens; a search starting with `tag:` compares the raw `tags`
column against the pattern `%"<rest trimmed>"%`; any other search compares
`title` and `content` against `%<search>%`. -/
def noteMatches (search : Str) (n : NoteRow) : Bool :=
  if search.isEmpty then true
  else if startsWithStr tagColon search then
    match n.tags with
    | some tg =>
      likeMatch ('%' :: '"' :: (trim (search.drop 4) ++ '"' :: ['%'])) tg
    | none => false
  else
    likeMatch ('%' :: (search ++ ['%'])) n.title ||
      likeMatch ('%' :: (search ++ ['%'])) n.content

/-- The row set returned by `GET /api/notes?search=…` (the `ORDER BY date`
clause is irrelevant to membership and omitted). -/
def getNotes (rows : List NoteRow) (search : Str) : List NoteRow :=
  rows.filter (noteMatches search)

/-- Case-insensitive substring test, the reading of "case-insensitive
substring (LIKE-style) match" in the specification; defined only to compare
the specified tag search against the implemented one. -/
def ciHasSub (needle : Str) : Str → Bool
  | [] => (ciStrip needle []).isSome
  | c :: rest => (ciStrip needle (c :: rest)).isSome || ciHasSub needle rest

/-- The tag search as the specification words it: the trimmed remainder of the
query matches some tag name of the note by case-insensitive substring.
Defined only for comparison with the implemented `noteMatches`. -/
def specTagSearchMatch (tagSearch : Str) (tagNames : List Str) : Bool :=
  tagNames.any (fun g => ciHasSub tagSearch g)

/-- Modelled from the spec: the tag-inheritance step of the Reconciler (§4.4
step 5 with §4.5 `setTags`/`inheritFromNote`).  The repository's
tag-synchronizer server code is absent from the sources (only
`migrations.js` declares the `todo_tags` table), so the step is modelled from
the specification's words: for each newly written todo, its association rows
are replaced by one `(todo id, tag name)` row per unique name in the parent
note's current tag set. -/
def inheritFromNote (noteTags : List Str) : List Todo → List (Str × Str)
  | [] => []
  | t :: ts =>
    noteTags.dedup.map (fun g => (t.id, g)) ++ inheritFromNote noteTags ts

/-- `splitNl` always produces at least one line (as JS `split`). -/
theorem splitNl_ne_nil (s : Str) : splitNl s ≠ [] := by
  cases s with
  | nil => simp [splitNl]
  | cons c cs =>
    simp only [splitNl]
    cases h : splitNl cs with
    | nil => simp
    | cons l ls => by_cases hc : c = '\n' <;> simp [hc]

/-- Joining the split lines reproduces the content byte for byte. -/
theorem joinNl_splitNl (s : Str) : joinNl (splitNl s) = s := by
  induction s with
  | nil => rfl
  | cons c cs ih =>
    simp only [splitNl]
    cases h : splitNl cs with
    | nil => exact absurd h (splitNl_ne_nil cs)
    | cons l ls =>
      rw [h] at ih
      by_cases hc : c = '\n'
      · subst hc
        simpa [joinNl] using ih
      · simp only [if_neg hc]
        cases ls with
        | nil => simpa [joinNl] using congrArg (c :: ·) ih
        | cons l2 ls2 => simpa [joinNl] using congrArg (c :: ·) ih

/-- Decimal value of a digit character. -/
theorem digit_val (m : Nat) (h : m < 10) : (digitChar m).toNat - 48 = m := by
  interval_cases m <;> rfl

/-- The fuelled decimal rendering round-trips through `charsVal` whenever the
fuel exceeds the number. -/
theorem charsVal_natToCharsAux (fuel : Nat) :
    ∀ n, n < fuel → charsVal (natToCharsAux fuel n) = n := by
  induction fuel with
  | zero => intro n h; omega
  | succ f ih =>
    intro n h
    by_cases h10 : n < 10
    · simp [natToCharsAux, h10, charsVal, List.foldl, digit_val n h10]
    · have hpos : 0 < n := by omega
      have hdiv : n / 10 < n := Nat.div_lt_self hpos (by omega)
      have hf : n / 10 < f := by omega
      rw [natToCharsAux, if_neg h10]
      rw [charsVal, List.foldl_append]
      have := ih (n / 10) hf
      rw [charsVal] at this
      rw [this]
      simp [List.foldl, digit_val (n % 10) (Nat.mod_lt n (by omega))]
      omega

/-- Decimal rendering round-trips: its value is the rendered number. -/
theorem charsVal_natToChars (n : Nat) : charsVal (natToChars n) = n :=
  charsVal_natToCharsAux (n + 1) n (Nat.lt_succ_self n)

/-- Decimal rendering is injective. -/
theorem natToChars_inj {i j : Nat} (h : natToChars i = natToChars j) : i = j := by
  have := congrArg charsVal h
  rwa [charsVal_natToChars, charsVal_natToChars] at this

/-- Two identifiers of the same note with different line indices differ. -/
theorem mkId_inj_right {n i j : Nat} (h : mkId n i = mkId n j) : i = j := by
  unfold mkId at h
  have h2 := List.append_cancel_left h
  exact natToChars_inj (List.cons.injEq .. |>.mp h2).2


theorem trimLeft_head (s : Str) {c : Char} {cs : Str} (h : trimLeft s = c :: cs) :
    isWs c = false := by
  induction s with
  | nil => simp [trimLeft] at h
  | cons a as ih =>
    rw [trimLeft] at h
    by_cases ha : isWs a = true
    · rw [if_pos ha] at h; exact ih h
    · rw [if_neg ha] at h
      cases h; simpa using ha

theorem trimRight_cons (c : Char) (cs : Str) :
    trimRight (c :: cs) = [] ∨ ∃ r, trimRight (c :: cs) = c :: r := by
  rw [trimRight]
  cases h : trimRight cs with
  | nil =>
    by_cases hc : isWs c = true
    · left; simp [hc]
    · right; exact ⟨[], by simp [hc]⟩
  | cons d ds => right; exact ⟨d :: ds, rfl⟩

theorem trim_head (s : Str) {c : Char} {cs : Str} (h : trim s = c :: cs) :
    isWs c = false := by
  rw [trim] at h
  cases hl : trimLeft s with
  | nil => rw [hl] at h; simp [trimRight] at h
  | cons d ds =>
    rw [hl] at h
    rcases trimRight_cons d ds with h2 | ⟨r, h2⟩
    · rw [h2] at h; cases h
    · rw [h2] at h
      cases h
      exact trimLeft_head s hl

theorem trim_startsWith_ws (s : Str) (c : Char) (hc : isWs c = true) :
    startsWithChar (trim s) c = false := by
  cases h : trim s with
  | nil => rfl
  | cons d ds =>
    have hd := trim_head s h
    simp only [startsWithChar]
    by_cases hdc : d = c
    · subst hdc; rw [hc] at hd; cases hd
    · simp [hdc]

theorem isTodoHeading_of_listItem {t : Str} (h : isListItem t = true) :
    isTodoHeading t = false := by
  cases t with
  | nil => simp [isListItem, startsWithChar] at h
  | cons c cs =>
    simp only [isListItem, startsWithChar, Bool.or_eq_true, decide_eq_true_eq] at h
    have hc : c ≠ '#' := by rcases h with h | h <;> subst h <;> decide
    simp [isTodoHeading, List.takeWhile, hc]

theorem extractLoop_id (n : Nat) (ttl : Str) :
    ∀ (lines : List Str) (i : Nat) (sec : Bool) (t : Todo),
      t ∈ extractLoop n ttl lines i sec → ∃ j, i ≤ j ∧ t.id = mkId n j ∧ t.noteId = n := by
  intro lines
  induction lines with
  | nil => intro i sec t ht; simp [extractLoop] at ht
  | cons raw rest ih =>
    intro i sec t ht
    simp only [extractLoop] at ht
    split at ht
    · obtain ⟨j, hj, h2⟩ := ih (i + 1) true t ht; exact ⟨j, by omega, h2⟩
    · split at ht
      · split at ht
        · split at ht
          · obtain ⟨j, hj, h2⟩ := ih (i + 1) true t ht
            exact ⟨j, by omega, h2⟩
          · rcases List.mem_cons.mp ht with h | h
            · subst h; exact ⟨i, le_refl i, rfl, rfl⟩
            · obtain ⟨j, hj, h2⟩ := ih (i + 1) true t h
              exact ⟨j, by omega, h2⟩
        · split at ht
          · obtain ⟨j, hj, h2⟩ := ih (i + 1) false t ht; exact ⟨j, by omega, h2⟩
          · split at ht
            · obtain ⟨j, hj, h2⟩ := ih (i + 1) false t ht; exact ⟨j, by omega, h2⟩
            · obtain ⟨j, hj, h2⟩ := ih (i + 1) true t ht; exact ⟨j, by omega, h2⟩
      · obtain ⟨j, hj, h2⟩ := ih (i + 1) false t ht; exact ⟨j, by omega, h2⟩

theorem extractLoop_pairwise (n : Nat) (ttl : Str) :
    ∀ (lines : List Str) (i : Nat) (sec : Bool),
      (extractLoop n ttl lines i sec).Pairwise (fun a b => a.id ≠ b.id) := by
  intro lines
  induction lines with
  | nil => intro i sec; simp [extractLoop]
  | cons raw rest ih =>
    intro i sec
    simp only [extractLoop]
    split
    · exact ih (i + 1) true
    · split
      · split
        · split
          · exact ih (i + 1) true
          · refine List.Pairwise.cons ?_ (ih (i + 1) true)
            intro b hb heq
            obtain ⟨j, hj, hid, _⟩ := extractLoop_id n ttl rest (i + 1) true b hb
            rw [hid] at heq
            have := mkId_inj_right heq
            omega
        · split
          · exact ih (i + 1) false
          · split
            · exact ih (i + 1) false
            · exact ih (i + 1) true
      · exact ih (i + 1) false


theorem updateLoop_length (pre todoId nt : Str) (np : Priority) :
    ∀ (lines : List Str) (i : Nat) (sec : Bool),
      (updateLoop pre todoId nt np lines i sec).length = lines.length := by
  intro lines
  induction lines with
  | nil => intro i sec; rfl
  | cons raw rest ih =>
    intro i sec
    simp only [updateLoop]
    split
    · simp [ih]
    · split
      · split
        · split
          · simp [ih]
          · simp [ih]
        · split
          · simp [ih]
          · split <;> simp [ih]
      · simp [ih]

theorem updateLoop_cons_shape (pre todoId nt : Str) (np : Priority)
    (raw : Str) (rest : List Str) (i : Nat) (sec : Bool) :
    ∃ (sec2 : Bool) (hd : Str),
      updateLoop pre todoId nt np (raw :: rest) i sec =
        hd :: updateLoop pre todoId nt np rest (i + 1) sec2 ∧
      (pre ++ '-' :: natToChars i ≠ todoId → hd = raw) := by
  by_cases h1 : isTodoHeading (trim raw) = true
  · refine ⟨true, raw, ?_, fun _ => rfl⟩
    simp [updateLoop, h1]
  · by_cases h2 : sec = true
    · by_cases h3 : isListItem (trim raw) = true
      · by_cases h4 : pre ++ '-' :: natToChars i = todoId
        · refine ⟨true,
            raw.takeWhile isWs ++
              (if startsWithChar (trim raw) '-' then '-' else '*') :: ' ' ::
              (priorityMarker np ++ nt), ?_, fun hne => absurd h4 hne⟩
          simp [updateLoop, h1, h2, h3, h4]
        · refine ⟨true, raw, ?_, fun _ => rfl⟩
          simp [updateLoop, h1, h2, h3, h4]
      · by_cases h5 : isHeadingExit (trim raw) = true
        · refine ⟨false, raw, ?_, fun _ => rfl⟩
          simp [updateLoop, h1, h2, h3, h5]
        · by_cases h6 : proseEnd (trim raw) = true
          · refine ⟨false, raw, ?_, fun _ => rfl⟩
            simp [updateLoop, h1, h2, h3, h5, h6]
          · refine ⟨true, raw, ?_, fun _ => rfl⟩
            simp [updateLoop, h1, h2, h3, h5, h6]
    · have h2b : sec = false := by revert h2; cases sec <;> simp
      refine ⟨false, raw, ?_, fun _ => rfl⟩
      simp [updateLoop, h1, h2b]

theorem updateLoop_frame (pre todoId nt : Str) (np : Priority) :
    ∀ (lines : List Str) (i k : Nat) (sec : Bool),
      pre ++ '-' :: natToChars (i + k) ≠ todoId →
      (updateLoop pre todoId nt np lines i sec).getD k [] = lines.getD k [] := by
  intro lines
  induction lines with
  | nil => intro i k sec h; rfl
  | cons raw rest ih =>
    intro i k sec h
    obtain ⟨sec2, hd, heq, hraw⟩ := updateLoop_cons_shape pre todoId nt np raw rest i sec
    rw [heq]
    cases k with
    | zero =>
      rw [Nat.add_zero] at h
      simp [hraw h]
    | succ k2 =>
      have h2 : pre ++ '-' :: natToChars (i + 1 + k2) ≠ todoId := by
        have e : i + 1 + k2 = i + (k2 + 1) := by omega
        rw [e]; exact h
      simpa using ih (i + 1) k2 sec2 h2

theorem updateLoop_nomatch (pre todoId nt : Str) (np : Priority) :
    ∀ (lines : List Str) (i : Nat) (sec : Bool),
      (∀ k, k < lines.length → pre ++ '-' :: natToChars (i + k) ≠ todoId) →
      updateLoop pre todoId nt np lines i sec = lines := by
  intro lines
  induction lines with
  | nil => intro i sec h; rfl
  | cons raw rest ih =>
    intro i sec h
    have h0 : pre ++ '-' :: natToChars i ≠ todoId := by
      have := h 0 (by simp)
      rwa [Nat.add_zero] at this
    have hrest : ∀ k, k < rest.length → pre ++ '-' :: natToChars (i + 1 + k) ≠ todoId := by
      intro k hk
      have hx := h (k + 1) (by simpa using Nat.succ_lt_succ hk)
      have e : i + (k + 1) = i + 1 + k := by omega
      rwa [e] at hx
    obtain ⟨sec2, hd, heq, hraw⟩ := updateLoop_cons_shape pre todoId nt np raw rest i sec
    rw [heq, hraw h0, ih (i + 1) sec2 hrest]

theorem mapLookup_none (stored : List StoredTodo) (txt : Str)
    (h : ∀ a ∈ stored, a.text ≠ txt) : mapLookup stored txt = none := by
  induction stored with
  | nil => rfl
  | cons e rest ih =>
    have h1 : mapLookup rest txt = none :=
      ih (fun a ha => h a (List.mem_cons_of_mem e ha))
    simp [mapLookup, h1, h e (List.mem_cons_self e rest)]

theorem mapLookup_uniq (stored : List StoredTodo) (s : StoredTodo)
    (hu : stored.Pairwise (fun a b => a.text ≠ b.text)) (hs : s ∈ stored) :
    mapLookup stored s.text = some s := by
  induction stored with
  | nil => cases hs
  | cons e rest ih =>
    rcases List.pairwise_cons.mp hu with ⟨hhead, htail⟩
    rcases List.mem_cons.mp hs with h | h
    · subst h
      have h1 : mapLookup rest s.text = none :=
        mapLookup_none rest s.text (fun a ha heq => hhead a ha heq.symm)
      simp [mapLookup, h1]
    · have h1 := ih htail h
      simp [mapLookup, h1]

theorem inheritFromNote_mem (noteTags : List Str) :
    ∀ (todos : List Todo) (a g : Str),
      ((a, g) ∈ inheritFromNote noteTags todos) ↔
        ∃ t ∈ todos, t.id = a ∧ g ∈ noteTags := by
  intro todos
  induction todos with
  | nil => intro a g; simp [inheritFromNote]
  | cons t ts ih =>
    intro a g
    simp only [inheritFromNote, List.mem_append, List.mem_map, ih]
    constructor
    · rintro (⟨g2, hg2, heq⟩ | ⟨t2, ht2, hid, hg⟩)
      · cases heq
        exact ⟨t, List.mem_cons_self t ts, rfl, List.mem_dedup.mp hg2⟩
      · exact ⟨t2, List.mem_cons_of_mem t ht2, hid, hg⟩
    · rintro ⟨t2, ht2, hid, hg⟩
      rcases List.mem_cons.mp ht2 with h | h
      · subst h
        exact Or.inl ⟨g, List.mem_dedup.mpr hg, by rw [hid]⟩
      · exact Or.inr ⟨t2, h, hid, hg⟩

theorem carryForward_fields (stored : List StoredTodo) (t : Todo) :
    (carryForward stored t).id = t.id ∧ (carryForward stored t).noteId = t.noteId ∧
      (carryForward stored t).text = t.text := by
  unfold carryForward
  cases mapLookup stored t.text <;> simp

theorem carryForward_some (stored : List StoredTodo) (t : Todo) (e : StoredTodo)
    (h : mapLookup stored t.text = some e) :
    carryForward stored t =
      { t with completed := e.completed, completedDate := e.completed_date,
               completionComment := e.completion_comment,
               priority := e.priority.getD Priority.medium } := by
  simp [carryForward, h]

/-- C9: on the content `"## TODO\n- [H] Fix bug\n- Write docs\n"` (note id 1),
extraction yields exactly two todos in order — text `Fix bug` with priority
high, then `Write docs` with priority medium — and rewriting the first todo's
identifier `1-1` to text `Fix bug ASAP` with priority low yields exactly
`"## TODO\n- [L] Fix bug ASAP\n- Write docs\n"`. -/
theorem c9_end_to_end :
    extractTodos 1 "## TODO\n- [H] Fix bug\n- Write docs\n".data "Note".data =
      [{ id := "1-1".data, noteId := 1, noteTitle := "Note".data,
         text := "Fix bug".data, completed := false, completedDate := none,
         completionComment := none, priority := Priority.high },
       { id := "1-2".data, noteId := 1, noteTitle := "Note".data,
         text := "Write docs".data, completed := false, completedDate := none,
         completionComment := none, priority := Priority.medium }] ∧
    updateTodoInNoteContent "## TODO\n- [H] Fix bug\n- Write docs\n".data
        "1-1".data "Fix bug ASAP".data Priority.low =
      "## TODO\n- [L] Fix bug ASAP\n- Write docs\n".data := by
  decide

/-- C10: the identifiers of the todos returned by a single `extractTodos` call
are pairwise distinct (each embeds a distinct source line index), so the
per-note primary-key inserts of the reconciliation step never collide within
one extraction. -/
theorem c10_ids_distinct (n : Nat) (content ttl : Str) :
    (extractTodos n content ttl).Pairwise (fun a b => a.id ≠ b.id) :=
  extractLoop_pairwise n ttl (splitNl content) 0 false

/-- C1 counterexample: the claim says a text-matched candidate keeps the
priority freshly parsed from the Markdown.  On note content
`"## TODO\n- [L] Fix bug"` the freshly parsed priority is low, yet with a
stored row of the same text and priority high, `extractAndSaveTodos` writes
the todo back with priority high — the stored priority wins, not the parsed
one (`todo.priority = existingTodo.priority || 'medium'` in the source). -/
theorem c1_counterexample :
    (extractTodos 1 "## TODO\n- [L] Fix bug".data "Note".data).map
        (fun t => t.priority) = [Priority.low] ∧
    (extractAndSaveTodos
        [{ text := "Fix bug".data, completed := false, completed_date := none,
           completion_comment := none, priority := some Priority.high }]
        1 "## TODO\n- [L] Fix bug".data "Note".data).map
        (fun t => t.priority) = [Priority.high] := by
  decide

/-- C1 amended: for every candidate whose text matches a stored row, the
written todo's priority equals the previously stored row's priority
(defaulted to medium when the stored value is absent), not the freshly parsed
one; text and identifier come from the candidate. -/
theorem c1_amended_priority (stored : List StoredTodo) (n : Nat) (content ttl : Str) :
    extractAndSaveTodos stored n content ttl =
      (extractTodos n content ttl).map (carryForward stored) ∧
    ∀ (t : Todo) (e : StoredTodo), mapLookup stored t.text = some e →
      (carryForward stored t).priority = e.priority.getD Priority.medium ∧
      (carryForward stored t).text = t.text ∧ (carryForward stored t).id = t.id := by
  refine ⟨rfl, ?_⟩
  intro t e h
  rw [carryForward_some stored t e h]
  exact ⟨rfl, rfl, rfl⟩

/-- C1 amended, witnessed at a concrete input: a stored row with priority low
overrides a candidate parsed as high. -/
theorem c1_amended_witness :
    (carryForward
      [{ text := "a".data, completed := true, completed_date := none,
         completion_comment := none, priority := some Priority.low }]
      { id := "1-1".data, noteId := 1, noteTitle := [], text := "a".data,
        completed := false, completedDate := none, completionComment := none,
        priority := Priority.high }).priority = Priority.low :=
  ((c1_amended_priority
      [{ text := "a".data, completed := true, completed_date := none,
         completion_comment := none, priority := some Priority.low }]
      1 [] []).2
    { id := "1-1".data, noteId := 1, noteTitle := [], text := "a".data,
      completed := false, completedDate := none, completionComment := none,
      priority := Priority.high }
    { text := "a".data, completed := true, completed_date := none,
      completion_comment := none, priority := some Priority.low }
    (by decide)).1

/-- C2 counterexample: the claim says an indented line inside a TODO section
is ignored and does not end the section.  The source trims each line before
classifying it, so the tab-indented prose line `"\tnote to self"` ends the
section: processing it (and the following list line) from inside the section
at line index 1 yields no todos, whereas resuming with the list line alone
still inside the section yields the todo `task` — the indented line was not
ignored. -/
theorem c2_counterexample :
    startsWithChar "\tnote to self".data '\t' = true ∧
    extractLoop 1 "Note".data ("\tnote to self".data :: ["- task".data]) 1 true = [] ∧
    extractLoop 1 "Note".data ["- task".data] 2 true =
      [{ id := "1-2".data, noteId := 1, noteTitle := "Note".data,
         text := "task".data, completed := false, completedDate := none,
         completionComment := none, priority := Priority.medium }] := by
  decide

/-- C2 amended: lines are trimmed before classification, so indentation is
irrelevant inside a TODO section: a blank (all-whitespace) line is ignored and
does not end the section, while any non-blank line that is not a list item and
not a heading — indented or not — ends the section.  (An indented list line is
treated as a candidate item, not ignored.) -/
theorem c2_amended_section (n : Nat) (ttl raw : Str) (rest : List Str) (i : Nat) :
    (trim raw = [] →
      extractLoop n ttl (raw :: rest) i true = extractLoop n ttl rest (i + 1) true) ∧
    (trim raw ≠ [] → isListItem (trim raw) = false → isTodoHeading (trim raw) = false →
      isHeadingExit (trim raw) = false →
      extractLoop n ttl (raw :: rest) i true = extractLoop n ttl rest (i + 1) false) := by
  constructor
  · intro h
    simp [extractLoop, h, isTodoHeading, isListItem, startsWithChar, proseEnd,
      isHeadingExit, List.takeWhile, trimLeft]
  · intro hne hli hth hhe
    have hsp : startsWithChar (trim raw) ' ' = false :=
      trim_startsWith_ws raw ' ' (by decide)
    have htb : startsWithChar (trim raw) '\t' = false :=
      trim_startsWith_ws raw '\t' (by decide)
    have hd : startsWithChar (trim raw) '-' = false ∧
        startsWithChar (trim raw) '*' = false := by
      have := hli
      rw [isListItem] at this
      exact Bool.or_eq_false_iff.mp this
    have hie : (trim raw).isEmpty = false := by
      cases hh : trim raw with
      | nil => exact absurd hh hne
      | cons a as => rfl
    have hpe : proseEnd (trim raw) = true := by
      simp [proseEnd, hsp, htb, hd.1, hd.2, hie]
    simp [extractLoop, hth, hli, hhe, hpe]

/-- C2 amended, witnessed at concrete inputs: a blank line is skipped with the
section kept open; a tab-indented prose line closes the section. -/
theorem c2_amended_witness :
    extractLoop 1 "T".data ("".data :: ["- a".data]) 1 true =
        extractLoop 1 "T".data ["- a".data] 2 true ∧
    extractLoop 1 "T".data ("\tnote".data :: ["- a".data]) 1 true =
        extractLoop 1 "T".data ["- a".data] 2 false := by
  constructor
  · exact (c2_amended_section 1 "T".data "".data ["- a".data] 1).1 (by decide)
  · exact (c2_amended_section 1 "T".data "\tnote".data ["- a".data] 1).2
      (by decide) (by decide) (by decide) (by decide)

/-- C3: after reconciliation, each written todo carries the parent note's id,
and (in the spec-modelled tag-inheritance step, the server-side tag code being
absent from the sources) its tag association set equals exactly the parent
note's current tag set — full inheritance, not merge. -/
theorem c3_tag_inheritance (stored : List StoredTodo) (n : Nat) (content ttl : Str)
    (noteTags : List Str) (t : Todo)
    (ht : t ∈ extractAndSaveTodos stored n content ttl) :
    t.noteId = n ∧
    ∀ g, ((t.id, g) ∈ inheritFromNote noteTags (extractAndSaveTodos stored n content ttl)) ↔
      g ∈ noteTags := by
  have hnote : t.noteId = n := by
    rcases List.mem_map.mp ht with ⟨c, hc, hct⟩
    obtain ⟨j, _, _, hnid⟩ := extractLoop_id n ttl (splitNl content) 0 false c hc
    rw [← hct, (carryForward_fields stored c).2.1, hnid]
  refine ⟨hnote, ?_⟩
  intro g
  rw [inheritFromNote_mem noteTags _ t.id g]
  constructor
  · rintro ⟨t2, _, _, hg⟩; exact hg
  · intro hg; exact ⟨t, ht, rfl, hg⟩

/-- C3, witnessed at a concrete input: the reconciled todo `1-1` inherits the
parent note's tag `w`. -/
theorem c3_witness :
    ("1-1".data, "w".data) ∈
      inheritFromNote ["w".data]
        (extractAndSaveTodos [] 1 "## TODO\n- a".data "T".data) := by
  have hx := c3_tag_inheritance [] 1 "## TODO\n- a".data "T".data ["w".data]
    { id := "1-1".data, noteId := 1, noteTitle := "T".data, text := "a".data,
      completed := false, completedDate := none, completionComment := none,
      priority := Priority.medium }
    (by decide)
  exact (hx.2 "w".data).mpr (by decide)

/-- C4 counterexample: the claim says a list line whose text is only a
priority token is silently dropped.  On `"## TODO\n- [H]"` the source checks
emptiness before running the Priority Lexer, so it emits one todo with empty
text and priority high instead of dropping the line. -/
theorem c4_counterexample :
    (extractTodos 1 "## TODO\n- [H]".data "Note".data).map
        (fun t => (t.text, t.priority)) = [([], Priority.high)] := by
  decide

/-- C4 amended: inside a TODO section a list line is emitted iff the text is
non-empty after stripping the list marker and trimming, before the Priority
Lexer runs; when the remainder is a bare priority token the line is emitted as
a todo with empty text and the parsed priority. -/
theorem c4_amended_emit (n : Nat) (ttl raw : Str) (rest : List Str) (i : Nat)
    (h : isListItem (trim raw) = true) :
    extractLoop n ttl (raw :: rest) i true =
      (if (trim ((trim raw).drop 1)).isEmpty then extractLoop n ttl rest (i + 1) true
       else
        { id := mkId n i, noteId := n, noteTitle := ttl,
          text := (parsePriority (trim ((trim raw).drop 1))).2, completed := false,
          completedDate := none, completionComment := none,
          priority := (parsePriority (trim ((trim raw).drop 1))).1 } ::
          extractLoop n ttl rest (i + 1) true) := by
  have hth := isTodoHeading_of_listItem h
  by_cases he : (trim ((trim raw).drop 1)).isEmpty = true
  · simp [extractLoop, hth, h, he]
  · have he2 : (trim ((trim raw).drop 1)).isEmpty = false := by
      revert he; cases (trim ((trim raw).drop 1)).isEmpty <;> simp
    simp [extractLoop, hth, h, he2]

/-- C4 amended, witnessed at concrete inputs: a bare `- ` line emits nothing,
while `- [H] x` emits the todo `x` with priority high. -/
theorem c4_amended_witness :
    extractLoop 1 "T".data ["- ".data] 1 true = [] ∧
    extractLoop 1 "T".data ["- [H] x".data] 1 true =
      [{ id := mkId 1 1, noteId := 1, noteTitle := "T".data, text := "x".data,
         completed := false, completedDate := none, completionComment := none,
         priority := Priority.high }] := by
  constructor
  · rw [c4_amended_emit 1 "T".data "- ".data [] 1 (by decide)]
    decide
  · rw [c4_amended_emit 1 "T".data "- [H] x".data [] 1 (by decide)]
    decide

/-- C5 counterexample: the claim says every completed stored todo whose text
still extracts keeps `completed = true`.  With two stored rows of identical
text — the first completed, the second not — the text-keyed map retains only
the later row, so the re-extracted todo comes back not completed. -/
theorem c5_counterexample :
    (extractTodos 1 "## TODO\n- Ship it".data "Note".data).map (fun t => t.text) =
      ["Ship it".data] ∧
    (extractAndSaveTodos
        [{ text := "Ship it".data, completed := true,
           completed_date := some "2024-01-01".data,
           completion_comment := some "done".data, priority := some Priority.medium },
         { text := "Ship it".data, completed := false, completed_date := none,
           completion_comment := none, priority := some Priority.medium }]
        1 "## TODO\n- Ship it".data "Note".data).map (fun t => t.completed) =
      [false] := by
  decide

/-- C5 amended: when the stored rows of the note have pairwise-distinct texts,
a completed stored row whose text re-extracts byte-identically yields a
written todo with `completed = true` and the stored `completed_date` and
`completion_comment` carried over (whatever the candidate's priority token). -/
theorem c5_amended_carry (stored : List StoredTodo) (n : Nat) (content ttl : Str)
    (s : StoredTodo) (c : Todo)
    (hu : stored.Pairwise (fun a b => a.text ≠ b.text))
    (hs : s ∈ stored) (hcomp : s.completed = true)
    (hcand : c ∈ extractTodos n content ttl) (htxt : c.text = s.text) :
    ∃ r ∈ extractAndSaveTodos stored n content ttl,
      r.id = c.id ∧ r.completed = true ∧ r.completedDate = s.completed_date ∧
      r.completionComment = s.completion_comment := by
  have hl : mapLookup stored c.text = some s := by
    rw [htxt]; exact mapLookup_uniq stored s hu hs
  refine ⟨carryForward stored c, List.mem_map_of_mem _ hcand, ?_⟩
  rw [carryForward_some stored c s hl]
  exact ⟨rfl, hcomp, rfl, rfl⟩

/-- C5 amended, witnessed at a concrete input: the completed stored row `a`
carries its completion data onto the re-extracted todo `1-1`. -/
theorem c5_amended_witness :
    ∃ r ∈ extractAndSaveTodos
        [{ text := "a".data, completed := true, completed_date := some "d".data,
           completion_comment := some "m".data, priority := some Priority.low }]
        1 "## TODO\n- a".data "T".data,
      r.id = "1-1".data ∧ r.completed = true ∧ r.completedDate = some "d".data ∧
      r.completionComment = some "m".data := by
  have hx := c5_amended_carry
    [{ text := "a".data, completed := true, completed_date := some "d".data,
       completion_comment := some "m".data, priority := some Priority.low }]
    1 "## TODO\n- a".data "T".data
    { text := "a".data, completed := true, completed_date := some "d".data,
      completion_comment := some "m".data, priority := some Priority.low }
    { id := "1-1".data, noteId := 1, noteTitle := "T".data, text := "a".data,
      completed := false, completedDate := none, completionComment := none,
      priority := Priority.medium }
    (by decide) (by decide) rfl (by decide) rfl
  exact hx

/-- C6: the Line Rewriter is local — the rewritten line list has the same
length as the input, every line whose recomputed `{notePart todoId}-{index}`
identifier differs from `todoId` is byte-identical to the input line, and when
no line index yields a matching identifier the whole content is returned
byte-identical (no error raised). -/
theorem c6_rewriter_frame (content todoId newText : Str) (np : Priority) :
    (updatedLines content todoId newText np).length = (splitNl content).length ∧
    (∀ k, notePart todoId ++ '-' :: natToChars k ≠ todoId →
      (updatedLines content todoId newText np).getD k [] = (splitNl content).getD k []) ∧
    ((∀ k, k < (splitNl content).length → notePart todoId ++ '-' :: natToChars k ≠ todoId) →
      updateTodoInNoteContent content todoId newText np = content) := by
  refine ⟨updateLoop_length _ _ _ _ _ 0 false, ?_, ?_⟩
  · intro k h
    exact updateLoop_frame (notePart todoId) todoId newText np (splitNl content) 0 k false
      (by simpa using h)
  · intro h
    unfold updateTodoInNoteContent updatedLines
    rw [updateLoop_nomatch _ _ _ _ _ 0 false (by simpa using h), joinNl_splitNl]

/-- C6, witnessed at concrete inputs: an unmatched identifier leaves the
content unchanged, and a matched rewrite leaves the other todo line intact. -/
theorem c6_witness :
    updateTodoInNoteContent "## TODO\n- a\n- b".data "1-9".data "x".data Priority.low =
      "## TODO\n- a\n- b".data ∧
    (updatedLines "## TODO\n- a\n- b".data "1-1".data "x".data Priority.low).getD 2 [] =
      "- b".data := by
  constructor
  · exact (c6_rewriter_frame "## TODO\n- a\n- b".data "1-9".data "x".data
      Priority.low).2.2 (by decide)
  · have hx := (c6_rewriter_frame "## TODO\n- a\n- b".data "1-1".data "x".data
      Priority.low).2.1 2 (by decide)
    rw [hx]
    decide

/-- C7 counterexample: the claim says a `tag:` search matches tag names by
case-insensitive substring.  The trimmed remainder `work` is a substring of
the tag name `homework`, yet the route's pattern `%"work"%` against the
JSON-serialized tags column `["homework"]` does not match, so the note is not
returned. -/
theorem c7_counterexample :
    specTagSearchMatch "work".data ["homework".data] = true ∧
    getNotes
      [{ title := "n".data, content := "c".data,
         tags := some "[\"homework\"]".data }] "tag:work".data = [] := by
  decide

/-- C7 amended: a search starting with `tag:` returns a note iff its raw tags
column LIKE-matches `%"<remainder trimmed>"%` — a quoted whole-name
case-insensitive match against the serialized tag array, not a substring match
on tag names; a non-empty search not starting with `tag:` returns a note iff
title or content LIKE-matches `%<search>%`. -/
theorem c7_amended_search (rows : List NoteRow) (search : Str) (note : NoteRow) :
    (startsWithStr tagColon search = true →
      (note ∈ getNotes rows search ↔ note ∈ rows ∧
        ∃ tg, note.tags = some tg ∧
          likeMatch ('%' :: '"' :: (trim (search.drop 4) ++ '"' :: ['%'])) tg = true)) ∧
    (search ≠ [] → startsWithStr tagColon search = false →
      (note ∈ getNotes rows search ↔ note ∈ rows ∧
        (likeMatch ('%' :: (search ++ ['%'])) note.title = true ∨
         likeMatch ('%' :: (search ++ ['%'])) note.content = true))) := by
  constructor
  · intro hpre
    have hne : search.isEmpty = false := by
      cases search with
      | nil => simp [startsWithStr, tagColon] at hpre
      | cons c cs => rfl
    rw [getNotes, List.mem_filter]
    constructor
    · rintro ⟨hmem, hmatch⟩
      refine ⟨hmem, ?_⟩
      cases htg : note.tags with
      | none =>
        rw [noteMatches] at hmatch
        simp [hne, hpre, htg] at hmatch
      | some tg =>
        refine ⟨tg, rfl, ?_⟩
        rw [noteMatches] at hmatch
        simp [hne, hpre, htg] at hmatch
        exact hmatch
    · rintro ⟨hmem, tg, htg, hlk⟩
      refine ⟨hmem, ?_⟩
      rw [noteMatches]
      simp [hne, hpre, htg]
      exact hlk
  · intro hns hpre
    have hne : search.isEmpty = false := by
      cases search with
      | nil => exact absurd rfl hns
      | cons c cs => rfl
    rw [getNotes, List.mem_filter]
    constructor
    · rintro ⟨hmem, hmatch⟩
      refine ⟨hmem, ?_⟩
      rw [noteMatches] at hmatch
      simp [hne, hpre] at hmatch
      exact hmatch
    · rintro ⟨hmem, hor⟩
      refine ⟨hmem, ?_⟩
      rw [noteMatches]
      simp [hne, hpre]
      exact hor

/-- C7 amended, witnessed at a concrete input: `tag:work` returns the note
whose tags column is the serialization of `["work"]`. -/
theorem c7_amended_witness :
    ({ title := "n".data, content := "c".data, tags := some "[\"work\"]".data } : NoteRow) ∈
      getNotes
        [{ title := "n".data, content := "c".data, tags := some "[\"work\"]".data }]
        "tag:work".data := by
  have hx := (c7_amended_search
    [{ title := "n".data, content := "c".data, tags := some "[\"work\"]".data }]
    "tag:work".data
    { title := "n".data, content := "c".data, tags := some "[\"work\"]".data }).1
    (by decide)
  exact hx.mpr ⟨by simp, "[\"work\"]".data, rfl, by decide⟩

/-- C8: each of the ten recognized priority tokens (and the lower-case
spellings of the lettered ones), placed at the start of a list item's text and
separated from the remaining text, decodes to its specified level with the
token and the whitespace after it stripped exactly once; when no token
matches, the priority is medium and the text is returned unmodified; and the
canonical encode of any decoded level is one of `"[H] "`, `""`, `"[L] "`. -/
theorem c8_priority_lexer :
    (∀ rest : Str, parsePriority ("[H] ".data ++ rest) = (Priority.high, rest.dropWhile isWs)) ∧
    (∀ rest : Str, parsePriority ("[HIGH] ".data ++ rest) = (Priority.high, rest.dropWhile isWs)) ∧
    (∀ rest : Str, parsePriority ("!!! ".data ++ rest) = (Priority.high, rest.dropWhile isWs)) ∧
    (∀ rest : Str, parsePriority ("[M] ".data ++ rest) = (Priority.medium, rest.dropWhile isWs)) ∧
    (∀ rest : Str, parsePriority ("[MED] ".data ++ rest) = (Priority.medium, rest.dropWhile isWs)) ∧
    (∀ rest : Str, parsePriority ("[MEDIUM] ".data ++ rest) = (Priority.medium, rest.dropWhile isWs)) ∧
    (∀ rest : Str, parsePriority ("!! ".data ++ rest) = (Priority.medium, rest.dropWhile isWs)) ∧
    (∀ rest : Str, parsePriority ("[L] ".data ++ rest) = (Priority.low, rest.dropWhile isWs)) ∧
    (∀ rest : Str, parsePriority ("[LOW] ".data ++ rest) = (Priority.low, rest.dropWhile isWs)) ∧
    (∀ rest : Str, parsePriority ("! ".data ++ rest) = (Priority.low, rest.dropWhile isWs)) ∧
    (∀ rest : Str, parsePriority ("[h] ".data ++ rest) = (Priority.high, rest.dropWhile isWs)) ∧
    (∀ rest : Str, parsePriority ("[high] ".data ++ rest) = (Priority.high, rest.dropWhile isWs)) ∧
    (∀ rest : Str, parsePriority ("[m] ".data ++ rest) = (Priority.medium, rest.dropWhile isWs)) ∧
    (∀ rest : Str, parsePriority ("[med] ".data ++ rest) = (Priority.medium, rest.dropWhile isWs)) ∧
    (∀ rest : Str, parsePriority ("[medium] ".data ++ rest) = (Priority.medium, rest.dropWhile isWs)) ∧
    (∀ rest : Str, parsePriority ("[l] ".data ++ rest) = (Priority.low, rest.dropWhile isWs)) ∧
    (∀ rest : Str, parsePriority ("[low] ".data ++ rest) = (Priority.low, rest.dropWhile isWs)) ∧
    (∀ t : Str, noTokenMatch t = true → parsePriority t = (Priority.medium, t)) ∧
    (∀ t : Str, priorityMarker (parsePriority t).1 = "[H] ".data ∨
      priorityMarker (parsePriority t).1 = [] ∨
      priorityMarker (parsePriority t).1 = "[L] ".data) := by
  refine ⟨fun rest => rfl, fun rest => rfl, fun rest => rfl, fun rest => rfl,
    fun rest => rfl, fun rest => rfl, fun rest => rfl, fun rest => rfl,
    fun rest => rfl, fun rest => rfl, fun rest => rfl, fun rest => rfl,
    fun rest => rfl, fun rest => rfl, fun rest => rfl, fun rest => rfl,
    fun rest => rfl, ?_, ?_⟩
  · intro t h
    simp only [noTokenMatch, priorityPats, List.all_cons, List.all_nil,
      Bool.and_eq_true, Option.isNone_iff_eq_none] at h
    obtain ⟨h1, h2, h3, h4, h5, h6, h7, h8, h9, h10, -⟩ := h
    simp [parsePriority, priorityPats, runPats, h1, h2, h3, h4, h5, h6, h7, h8, h9, h10]
  · intro t
    cases hp : (parsePriority t).1
    · exact Or.inr (Or.inr rfl)
    · exact Or.inr (Or.inl rfl)
    · exact Or.inl rfl

/-- C8, witnessed at a concrete input: text with no leading token keeps
priority medium and is returned unmodified. -/
theorem c8_witness :
    parsePriority "Fix the bug".data = (Priority.medium, "Fix the bug".data) :=
  c8_priority_lexer.2.2.2.2.2.2.2.2.2.2.2.2.2.2.2.2.2.1 "Fix the bug".data (by decide)

end NotesApp
